import Mathlib

/-!
Verification of the matneez offline-first document synchronization engine.

This file gives a shallow embedding of the engine's document store, its
conflict-retrying save helpers (`saveDocument` from
`src/services/database/localDatabase.js` and `saveNote` from the PouchDB
note service), the `find`-style query (`queryDocumentsByType`), the sync
orchestrator's debounce and subscription logic, the replication
`back_off_function`, and the database singleton lifecycle
(`getDatabase` / `destroyDatabase`), and proves the specification's
claims about them.

Asynchronous store calls are modelled with an explicit environment
queue: every awaited database primitive is a suspension point, and at
each suspension point one action of the environment (possibly a write
committed by a concurrent writer, e.g. the replicator applying a remote
change) is applied to the store before the primitive runs.  An empty
environment models an uncontended, effectively single-threaded run.
-/

namespace Matneez

/-- A timestamp.  The source stores `new Date().toISOString()` strings,
whose lexicographic order coincides with the order of the instants that
produced them; a timestamp is therefore modelled as the instant itself,
a natural number of ticks. -/
abbrev Time := Nat

/-- The non-identity, non-revision fields of a stored document.  `content`
is the caller-owned payload; `createdAt` / `updatedAt` are the
timestamps; `type` is the kind discriminator (`"note"` for domain
documents).  A field that the saved JSON object does not carry at all is
`none`. -/
structure DocFields where
  content : String
  createdAt : Option Time
  updatedAt : Option Time
  type : Option String
deriving DecidableEq, Repr

/-- A committed document: its current revision number together with its
fields.  PouchDB revisions are opaque strings `"N-hash"`; only the
generation number `N` matters for the optimistic-concurrency check, so a
revision is modelled as that number. -/
structure StoredDoc where
  rev : Nat
  fields : DocFields
deriving DecidableEq, Repr

/-- A document as passed to `db.put`: it carries a `_rev` when the caller
claims to have observed an existing revision, and no `_rev` for a fresh
create. -/
structure PutDoc where
  _id : String
  _rev : Option Nat
  fields : DocFields
deriving DecidableEq, Repr

/-- The local store: an association list from document id to its current
committed revision and fields (exactly one live entry per id). -/
abbrev Store := List (String × StoredDoc)

/-- Look up the committed document for an id. -/
def lookupDoc : Store → String → Option StoredDoc
  | [], _ => none
  | (i, d) :: rest, id => if i = id then some d else lookupDoc rest id

/-- Commit a document at an id, replacing any existing entry. -/
def setDoc : Store → String → StoredDoc → Store
  | [], id, d => [(id, d)]
  | (i, e) :: rest, id, d =>
      if i = id then (id, d) :: rest else (i, e) :: setDoc rest id d

/-- The store/database errors the embedded code distinguishes:
`conflict` (stale revision on a write), `not_found` (absent id), and
`out_of_fuel` (artificial: the recursion bound of the fuelled embedding
of the source's unbounded retry recursion was exhausted). -/
inductive DbErr
  | conflict
  | not_found
  | out_of_fuel
deriving DecidableEq, Repr

/-- `db.get(id)`: the current revision and fields, or `not_found`. -/
def dbGet (s : Store) (id : String) : Except DbErr (Nat × DocFields) :=
  match lookupDoc s id with
  | some d => .ok (d.rev, d.fields)
  | none => .error .not_found

/-- `db.put(doc)`: optimistic-concurrency write.  For an existing id the
presented `_rev` must equal the current revision (else `conflict`); for a
fresh id no `_rev` may be presented (else `conflict`).  On success the
store holds the new fields under the next revision number, which is also
returned. -/
def dbPut (s : Store) (doc : PutDoc) : Except DbErr (Store × Nat) :=
  match lookupDoc s doc._id with
  | some d =>
      if doc._rev = some d.rev then
        .ok (setDoc s doc._id ⟨d.rev + 1, doc.fields⟩, d.rev + 1)
      else .error .conflict
  | none =>
      match doc._rev with
      | none => .ok (setDoc s doc._id ⟨1, doc.fields⟩, 1)
      | some _ => .error .conflict

/-- One action of the concurrent environment at a suspension point:
either nothing happens, or some other writer (another task, or the
replicator applying a remote change) commits new fields to `id`, bumping
its revision. -/
inductive EnvAct
  | idle
  | extWrite (id : String) (f : DocFields)
deriving DecidableEq, Repr

/-- Apply one environment action to the store. -/
def applyEnv (s : Store) : EnvAct → Store
  | .idle => s
  | .extWrite id f =>
      match lookupDoc s id with
      | some d => setDoc s id ⟨d.rev + 1, f⟩
      | none => setDoc s id ⟨1, f⟩

/-- At a suspension point, consume the next environment action (if any)
before the database primitive runs. -/
def popEnv : Store → List EnvAct → Store × List EnvAct
  | s, [] => (s, [])
  | s, a :: rest => (applyEnv s a, rest)

/-- `saveDocument(id, content, rev)` from `localDatabase.js`.  With an
explicit `rev` it puts exactly `{_id, _rev, content, updatedAt}`; without
one it first `get`s the document and spreads the existing fields (or, on
`not_found`, creates `{_id, content, createdAt, updatedAt, type: "note"}`).
On a put `conflict` it re-fetches the latest revision and calls itself
recursively with that revision — the source bounds this recursion in no
way, so the embedding carries a `fuel` parameter and answers
`out_of_fuel` when the bound is hit. -/
def saveDocumentGo (fuel : Nat) (s : Store) (env : List EnvAct)
    (id content : String) (now : Time) (rev : Option Nat) : Except DbErr (Store × Nat) :=
  match fuel with
  | 0 => .error .out_of_fuel
  | fuel' + 1 =>
    let built : Except DbErr (PutDoc × Store × List EnvAct) :=
      match rev with
      | some r => .ok (⟨id, some r, ⟨content, none, some now, none⟩⟩, s, env)
      | none =>
        let p1 := popEnv s env
        match dbGet p1.1 id with
        | .ok (r, f) =>
            .ok (⟨id, some r, { f with content := content, updatedAt := some now }⟩, p1.1, p1.2)
        | .error .not_found =>
            .ok (⟨id, none, ⟨content, some now, some now, some "note"⟩⟩, p1.1, p1.2)
        | .error e => .error e
    match built with
    | .error e => .error e
    | .ok (doc, s1, env1) =>
      let p2 := popEnv s1 env1
      match dbPut p2.1 doc with
      | .ok (s3, r') => .ok (s3, r')
      | .error .conflict =>
        let p3 := popEnv p2.1 p2.2
        match dbGet p3.1 id with
        | .ok (r, _) => saveDocumentGo fuel' p3.1 p3.2 id content now (some r)
        | .error e => .error e
      | .error e => .error e

/-- `saveNote(noteId, htmlContent, currentRev)` from the PouchDB note
service.  It ignores `currentRev`: it always re-fetches the latest
revision first, preserving only `createdAt` from the existing document
(on `not_found`, `createdAt := updatedAt`), then puts
`{_id, _rev?, content, createdAt, updatedAt}`.  On a put `conflict` it
re-fetches once, re-puts the same payload under the fresh revision, and
surfaces any error of that second put. -/
def saveNote (s : Store) (env : List EnvAct)
    (noteId htmlContent : String) (now : Time) (currentRev : Option Nat) :
    Except DbErr (Store × Nat) :=
  let p1 := popEnv s env
  let docToSave : PutDoc :=
    match dbGet p1.1 noteId with
    | .ok (r, f) => ⟨noteId, some r, ⟨htmlContent, f.createdAt, some now, none⟩⟩
    | .error _ => ⟨noteId, none, ⟨htmlContent, some now, some now, none⟩⟩
  let p2 := popEnv p1.1 p1.2
  match dbPut p2.1 docToSave with
  | .ok (s3, r) => .ok (s3, r)
  | .error .conflict =>
    let p3 := popEnv p2.1 p2.2
    match dbGet p3.1 noteId with
    | .ok (r, _) =>
      let p4 := popEnv p3.1 p3.2
      match dbPut p4.1 { docToSave with _rev := some r } with
      | .ok (s5, r') => .ok (s5, r')
      | .error e => .error e
    | .error e => .error e
  | .error e => .error e

/-- Sort key for `find`: the document's `updatedAt`, with an absent
timestamp sorting below every present one. -/
def updKey (p : String × StoredDoc) : WithBot Time :=
  match p.2.fields.updatedAt with
  | none => ⊥
  | some t => (t : WithBot Time)

/-- Descending-`updatedAt` order on query results. -/
def byUpdatedAtDesc (a b : String × StoredDoc) : Prop := updKey b ≤ updKey a

instance : DecidableRel byUpdatedAtDesc :=
  fun a b => inferInstanceAs (Decidable (updKey b ≤ updKey a))

instance : IsTotal (String × StoredDoc) byUpdatedAtDesc :=
  ⟨fun a b => le_total (updKey b) (updKey a)⟩

instance : IsTrans (String × StoredDoc) byUpdatedAtDesc :=
  ⟨fun _ _ _ hab hbc => le_trans hbc hab⟩

/-- `queryDocumentsByType(type)` from `localDatabase.js`: a Mango query
with selector `{type}` and sort `[{updatedAt: 'desc'}]` — the documents
whose `type` field equals the requested kind, ordered by descending
`updatedAt`. -/
def queryDocumentsByType (s : Store) (type : String) :
    List (String × StoredDoc) :=
  List.insertionSort byUpdatedAtDesc
    (s.filter (fun p => decide (p.2.fields.type = some type)))


/-- The replication `back_off_function` passed to `localDb.sync` by
`startSync`: `0 ↦ 1000` (first retry after 1 s); a delay already at or
above `60000` is answered with `60000`; any other delay is multiplied by
`1.5`.  Delays are fractional milliseconds (the multiplication by 1.5
leaves the integers), modelled as rationals. -/
def back_off_function (delay : ℚ) : ℚ :=
  if delay = 0 then 1000
  else if delay ≥ 60000 then 60000
  else delay * 1.5

/-- The debounce window of `debouncedSync` (both the fp `SyncService`
and the module-level sync service use 500 ms). -/
def DEBOUNCE_DELAY : Time := 500

/-- State of the `debouncedSync` closure.  `pending` is the currently
scheduled timer: the index of the `debouncedSync` call that armed it
(each call returns a promise resolved only by its own timer callback)
together with the absolute time at which it is due.  `fired` logs, in
order, each timer callback that actually ran — i.e. each underlying
`startSync` invocation, tagged with the call whose promise it
resolves and the time it ran. -/
structure DebounceState where
  pending : Option (Nat × Time)
  fired : List (Nat × Time)
deriving DecidableEq, Repr

/-- One `debouncedSync` call, the `i`-th, arriving at time `t`.  A timer
whose deadline has already passed ran before this call (its callback
invoked `startSync` and resolved the corresponding promise); a timer
still in the future is cleared by `clearTimeout` — its callback, the only
continuation that would resolve that earlier call's promise, is
discarded.  The call then arms a fresh timer due `DEBOUNCE_DELAY` after
`t` for its own promise. -/
def debounceCall (st : DebounceState) (i : Nat) (t : Time) : DebounceState :=
  let st' : DebounceState :=
    match st.pending with
    | some (j, d) => if d ≤ t then ⟨none, st.fired ++ [(j, d)]⟩ else ⟨none, st.fired⟩
    | none => st
  ⟨some (i, t + DEBOUNCE_DELAY), st'.fired⟩

/-- Run a sequence of `debouncedSync` calls (index, arrival time). -/
def debounceRun (st : DebounceState) : List (Nat × Time) → DebounceState
  | [] => st
  | (i, t) :: rest => debounceRun (debounceCall st i t) rest

/-- Let time pass after the last call: a timer still pending fires at its
deadline. -/
def debounceFlush (st : DebounceState) : DebounceState :=
  match st.pending with
  | some (j, d) => ⟨none, st.fired ++ [(j, d)]⟩
  | none => st

/-- The complete observable effect of a sequence of `debouncedSync`
calls: which `startSync` invocations fire, for which calls, and when. -/
def debouncedSyncRuns (calls : List (Nat × Time)) : DebounceState :=
  debounceFlush (debounceRun ⟨none, []⟩ calls)

/-- Last element of `d :: l`. -/
def lastD : (Nat × Time) → List (Nat × Time) → (Nat × Time)
  | d, [] => d
  | _, x :: xs => lastD x xs

/-- A burst: times never decrease and each call arrives strictly less
than `DEBOUNCE_DELAY` after its predecessor. -/
def BurstStep (a b : Time) : Prop := a ≤ b ∧ b < a + DEBOUNCE_DELAY

instance : DecidableRel BurstStep :=
  fun a b => inferInstanceAs (Decidable (a ≤ b ∧ b < a + DEBOUNCE_DELAY))

theorem burstStep_of (a b : Time) (h1 : a ≤ b) (h2 : b < a + 500) : BurstStep a b := ⟨h1, h2⟩

/-- The part of the fp `createSyncService` closure state that `startSync`
touches, together with a ledger of every replication handle ever created
(`localDb.sync(...)` calls) and every one cancelled, so that "live
replications" is expressible.  `enabled` is `config.enabled`;
`localOk` / `remoteOk` say whether `getLocalDb()` / `getRemoteDb()`
return a usable handle. -/
structure SyncServState where
  enabled : Bool
  localOk : Bool
  remoteOk : Bool
  syncHandler : Option Nat
  nextId : Nat
  created : List Nat
  cancelled : List Nat
deriving DecidableEq, Repr

/-- Outcome of the `startSync` body before any replication event
arrives. -/
inductive StartSyncResult
  | disabled
  | dbUnavailable
  | started (id : Nat)
deriving DecidableEq, Repr

/-- The fp `SyncService.startSync` body up to the creation of the new
replication: return `false` when sync is disabled; throw when a database
handle is unavailable; otherwise first cancel the existing `syncHandler`
if there is one, then create the new replication and store it as the
current handler. -/
def startSyncStep (st : SyncServState) : SyncServState × StartSyncResult :=
  if !st.enabled then (st, .disabled)
  else if !st.localOk || !st.remoteOk then (st, .dbUnavailable)
  else
    let st1 :=
      match st.syncHandler with
      | some h => { st with syncHandler := none, cancelled := st.cancelled ++ [h] }
      | none => st
    let newId := st1.nextId
    ({ st1 with
        syncHandler := some newId,
        nextId := newId + 1,
        created := st1.created ++ [newId] },
     .started newId)

/-- The replication handles created and never cancelled. -/
def liveHandlers (st : SyncServState) : List Nat :=
  st.created.filter (fun i => decide (i ∉ st.cancelled))

/-- Invariant of the sync service: the live replications are exactly the
stored `syncHandler` (in particular there is at most one), and handle
ids are allocated below `nextId`. -/
def SyncInv (st : SyncServState) : Prop :=
  liveHandlers st = st.syncHandler.toList ∧
  (∀ i ∈ st.created, i < st.nextId) ∧
  (∀ i ∈ st.cancelled, i < st.nextId)

/-- The orchestrator's aggregated `SyncStatus` record. -/
structure SyncStatus where
  isActive : Bool
  isPeriodicSyncActive : Bool
  isRemoteConnected : Bool
  lastSync : Option Time
  error : Option String
deriving DecidableEq, Repr

/-- The subscription state of the fp `createSyncService`: the
`subscribers` array (handlers in the order they subscribed),
`currentStatus`, and a log of every handler invocation `(handler,
status)` in the order the invocations happened. -/
structure SubsState where
  subscribers : List Nat
  currentStatus : SyncStatus
  deliveries : List (Nat × SyncStatus)
deriving DecidableEq, Repr

/-- `notifySubscribers(status)`: records the new status and synchronously
invokes every subscribed handler with it, in array order, then the
optional `handlers.onStatusChange` hook (not a subscriber, not
logged). -/
def notifySubscribers (st : SubsState) (status : SyncStatus) : SubsState :=
  { subscribers := st.subscribers,
    currentStatus := status,
    deliveries := st.deliveries ++ st.subscribers.map (fun h => (h, status)) }

/-- `subscribe(handler)`: pushes the handler onto the array, then
immediately invokes it once with the current status. -/
def subscribe (st : SubsState) (h : Nat) : SubsState :=
  { subscribers := st.subscribers ++ [h],
    currentStatus := st.currentStatus,
    deliveries := st.deliveries ++ [(h, st.currentStatus)] }

/-- The closure returned by `subscribe`: `indexOf` the handler and, when
found, `splice` it out — i.e. remove the first occurrence, leaving every
other entry in place. -/
def unsubscribe (st : SubsState) (h : Nat) : SubsState :=
  { st with subscribers := st.subscribers.erase h }

/-- The module-level singleton state of `localDatabase.js`: the
`dbInstance` (its contents, when one exists) and the `isDestroyed`
flag. -/
structure DbModule where
  dbInstance : Option Store
  isDestroyed : Bool
deriving DecidableEq, Repr

/-- `getDatabase()`: a destroyed flag causes the stale instance to be
dropped and the flag reset; then, when no instance exists, a fresh
(empty) database is constructed and kept.  Every store operation goes
through this accessor. -/
def getDatabase (m : DbModule) : DbModule × Store :=
  let m1 : DbModule :=
    if m.isDestroyed then { dbInstance := none, isDestroyed := false } else m
  match m1.dbInstance with
  | some s => (m1, s)
  | none => ({ dbInstance := some [], isDestroyed := m1.isDestroyed }, [])

/-- `destroyDatabase()`: when an instance exists, destroy it, clear the
reference and set the destroyed flag; otherwise do nothing. -/
def destroyDatabase (m : DbModule) : DbModule :=
  match m.dbInstance with
  | some _ => { dbInstance := none, isDestroyed := true }
  | none => m

/-- Fields committed by a concurrent external writer in the conflict
scenarios. -/
def extFields : DocFields := ⟨"X", some 9, some 9, some "note"⟩

/-- A store holding one note `n1` at revision 1, created at time 0. -/
def baseStore : Store := [("n1", ⟨1, ⟨"A", some 0, some 0, some "note"⟩⟩)]

/-! ### Helper lemmas about the store -/

theorem lookupDoc_setDoc_self (s : Store) (id : String) (d : StoredDoc) :
    lookupDoc (setDoc s id d) id = some d := by
  induction s with
  | nil => simp [setDoc, lookupDoc]
  | cons p rest ih =>
    obtain ⟨i, e⟩ := p
    by_cases hi : i = id
    · simp [setDoc, hi, lookupDoc]
    · simp [setDoc, hi, lookupDoc, ih]

theorem mem_setDoc_of_nodup {s : Store} {id : String} {d : StoredDoc}
    {p : String × StoredDoc} (hnd : (s.map Prod.fst).Nodup)
    (hmem : p ∈ setDoc s id d) : p = (id, d) ∨ (p ∈ s ∧ p.1 ≠ id) := by
  induction s with
  | nil =>
    simp [setDoc] at hmem
    exact Or.inl hmem
  | cons q rest ih =>
    obtain ⟨i, e⟩ := q
    simp only [List.map_cons, List.nodup_cons] at hnd
    by_cases hi : i = id
    · subst hi
      simp only [setDoc, if_pos rfl] at hmem
      rcases List.mem_cons.mp hmem with h | h
      · exact Or.inl h
      · refine Or.inr ⟨List.mem_cons_of_mem _ h, ?_⟩
        intro hpi
        exact hnd.1 (hpi ▸ List.mem_map_of_mem Prod.fst h)
    · simp only [setDoc, if_neg hi] at hmem
      rcases List.mem_cons.mp hmem with h | h
      · subst h
        exact Or.inr ⟨List.mem_cons_self _ _, hi⟩
      · rcases ih hnd.2 h with h' | h'
        · exact Or.inl h'
        · exact Or.inr ⟨List.mem_cons_of_mem _ h'.1, h'.2⟩

/-! ### C4: the replication backoff schedule -/

/-- C4 counterexample: the claim "for every positive input delay the
result is 1.5 times that delay, and for every non-negative input delay
the result never exceeds 60000" fails at the concrete inputs 50000
(answered 75000, above the claimed 60000 ceiling) and 70000 (answered
60000, not 1.5 × 70000 = 105000). -/
theorem C4_counterexample :
    back_off_function 50000 = 75000 ∧
    ¬ back_off_function 50000 ≤ 60000 ∧
    back_off_function 70000 = 60000 ∧
    back_off_function 70000 ≠ 70000 * 1.5 := by
  norm_num [back_off_function]

/-- C4 (amended): `back_off_function` answers 1000 on input 0, 1.5 times
the delay for a nonzero delay below 60000 (which exceeds 60000 as soon as
the delay exceeds 40000), and exactly 60000 for any delay at or above
60000 — the 60 s cap is applied only once the input itself has reached
it. -/
theorem C4_back_off_schedule (delay : ℚ) :
    (delay = 0 → back_off_function delay = 1000) ∧
    (delay ≠ 0 → delay < 60000 → back_off_function delay = delay * 1.5) ∧
    (60000 ≤ delay → back_off_function delay = 60000) := by
  refine ⟨fun h0 => ?_, fun hne hlt => ?_, fun hge => ?_⟩
  · simp [back_off_function, h0]
  · rw [back_off_function, if_neg hne, if_neg (by exact not_le.mpr hlt)]
  · rcases eq_or_ne delay 0 with h0 | h0
    · norm_num [h0] at hge
    · rw [back_off_function, if_neg h0, if_pos hge]

/-- Witness for C4: the amended schedule evaluated at 0, 2000 and
60000. -/
theorem C4_back_off_schedule_witness :
    back_off_function 0 = 1000 ∧
    back_off_function 2000 = 3000 ∧
    back_off_function 60000 = 60000 := by
  refine ⟨(C4_back_off_schedule 0).1 rfl, ?_, (C4_back_off_schedule 60000).2.2 (by norm_num)⟩
  have h := (C4_back_off_schedule 2000).2.1 (by norm_num) (by norm_num)
  rw [h]; norm_num

/-! ### C10: the database singleton survives destruction -/

/-- C10: after `destroyDatabase` has destroyed the local store, the next
`getDatabase` detects the `isDestroyed` flag, resets it and constructs a
fresh empty instance, so a subsequent write (here `saveDocument` creating
a document) succeeds on the new empty store and a read sees the empty
store, rather than any destroyed-database failure. -/
theorem C10_fresh_database_after_destroy (m : DbModule) (s : Store)
    (h : m.dbInstance = some s) :
    (destroyDatabase m).isDestroyed = true ∧
    getDatabase (destroyDatabase m) = (⟨some [], false⟩, []) ∧
    (∀ id content now,
      saveDocumentGo 1 (getDatabase (destroyDatabase m)).2 [] id content now none =
        .ok ([(id, ⟨1, ⟨content, some now, some now, some "note"⟩⟩)], 1)) ∧
    (∀ id, dbGet (getDatabase (destroyDatabase m)).2 id = .error .not_found) := by
  have hd : destroyDatabase m = ⟨none, true⟩ := by
    rw [destroyDatabase, h]
  refine ⟨by rw [hd], by rw [hd]; rfl, fun id content now => ?_, fun id => ?_⟩
  · rw [hd]; rfl
  · rw [hd]; rfl

/-- Witness for C10: destroying a module that holds `baseStore` and
writing again. -/
theorem C10_fresh_database_after_destroy_witness :
    getDatabase (destroyDatabase ⟨some baseStore, false⟩) = (⟨some [], false⟩, []) ∧
    saveDocumentGo 1 (getDatabase (destroyDatabase ⟨some baseStore, false⟩)).2 []
      "n1" "B" 5 none = .ok ([("n1", ⟨1, ⟨"B", some 5, some 5, some "note"⟩⟩)], 1) :=
  ⟨(C10_fresh_database_after_destroy ⟨some baseStore, false⟩ baseStore rfl).2.1,
   (C10_fresh_database_after_destroy ⟨some baseStore, false⟩ baseStore rfl).2.2.1 "n1" "B" 5⟩

/-! ### Facts about what a successful save commits -/

/-- Every successful `saveDocument` run — whatever the contention, the
retry depth and the presented revision — leaves the document stored under
the returned revision with the caller's content and `updatedAt` set to
the time of the write. -/
theorem saveDocumentGo_ok_fields (id content : String) (now : Time) :
    ∀ (fuel : Nat) (s : Store) (env : List EnvAct) (rev : Option Nat)
      (s' : Store) (r' : Nat),
    saveDocumentGo fuel s env id content now rev = .ok (s', r') →
    ∃ cAt tp, lookupDoc s' id = some ⟨r', ⟨content, cAt, some now, tp⟩⟩ := by
  intro fuel
  induction fuel with
  | zero =>
    intro s env rev s' r' h
    simp [saveDocumentGo] at h
  | succ n ih =>
    intro s env rev s' r' h
    rw [saveDocumentGo.eq_def] at h
    simp only [] at h
    split at h
    · exact absurd h (by simp)
    · rename_i doc s1 env1 heq
      split at h
      · rename_i s3 rr hput
        cases h
        have hdoc : doc.fields.content = content ∧ doc.fields.updatedAt = some now ∧
            doc._id = id := by
          split at heq
          · cases heq; exact ⟨rfl, rfl, rfl⟩
          · split at heq
            · cases heq; exact ⟨rfl, rfl, rfl⟩
            · cases heq; exact ⟨rfl, rfl, rfl⟩
            · exact absurd heq (by simp)
        rw [dbPut] at hput
        split at hput
        · split at hput
          · cases hput
            refine ⟨doc.fields.createdAt, doc.fields.type, ?_⟩
            rw [← hdoc.2.2, lookupDoc_setDoc_self]
            rw [← hdoc.1, ← hdoc.2.1]
          · exact absurd hput (by simp)
        · split at hput
          · cases hput
            refine ⟨doc.fields.createdAt, doc.fields.type, ?_⟩
            rw [← hdoc.2.2, lookupDoc_setDoc_self]
            rw [← hdoc.1, ← hdoc.2.1]
          · exact absurd hput (by simp)
      · split at h
        · exact ih _ _ _ _ _ h
        · exact absurd h (by simp)
      · exact absurd h (by simp)

/-- Every successful `saveNote` run leaves the note stored under the
returned revision with the caller's content, `updatedAt` set to the time
of the write, and no `type` field. -/
theorem saveNote_ok_fields (noteId htmlContent : String) (now : Time)
    (s : Store) (env : List EnvAct) (cr : Option Nat) (s' : Store) (r' : Nat)
    (h : saveNote s env noteId htmlContent now cr = .ok (s', r')) :
    ∃ cAt, lookupDoc s' noteId = some ⟨r', ⟨htmlContent, cAt, some now, none⟩⟩ := by
  rw [saveNote.eq_def] at h
  simp only [] at h
  split at h
  · rename_i s3 rr hput
    cases h
    split at hput <;> rename_i hget
    · rename_i r0 f0
      rw [dbPut] at hput
      split at hput
      · split at hput
        · cases hput
          exact ⟨f0.createdAt, lookupDoc_setDoc_self ..⟩
        · exact absurd hput (by simp)
      · split at hput
        · cases hput
          exact ⟨f0.createdAt, lookupDoc_setDoc_self ..⟩
        · exact absurd hput (by simp)
    · rw [dbPut] at hput
      split at hput
      · split at hput
        · cases hput
          exact ⟨some now, lookupDoc_setDoc_self ..⟩
        · exact absurd hput (by simp)
      · split at hput
        · cases hput
          exact ⟨some now, lookupDoc_setDoc_self ..⟩
        · exact absurd hput (by simp)
  · split at h
    · rename_i r1 hget1
      split at h
      · rename_i s5 r5 hput2
        cases h
        split at hput2 <;> rename_i hget0
        · rename_i r0 f0
          rw [dbPut] at hput2
          split at hput2
          · split at hput2
            · cases hput2
              exact ⟨f0.createdAt, lookupDoc_setDoc_self ..⟩
            · exact absurd hput2 (by simp)
          · split at hput2
            · cases hput2
              exact ⟨f0.createdAt, lookupDoc_setDoc_self ..⟩
            · exact absurd hput2 (by simp)
        · rw [dbPut] at hput2
          split at hput2
          · split at hput2
            · cases hput2
              exact ⟨some now, lookupDoc_setDoc_self ..⟩
            · exact absurd hput2 (by simp)
          · split at hput2
            · cases hput2
              exact ⟨some now, lookupDoc_setDoc_self ..⟩
            · exact absurd hput2 (by simp)
      · exact absurd h (by simp)
    · exact absurd h (by simp)
  · exact absurd h (by simp)

/-! ### C3: timestamp handling of the save helpers -/

/-- C3 counterexample: `baseStore` holds `n1` with `createdAt = some 0`;
a successful `saveDocument` with the explicit current revision 1 stores
the document with `createdAt = none` — the first-write `createdAt` is not
kept when the caller passes an explicit revision. -/
theorem C3_counterexample :
    (lookupDoc baseStore "n1").map (fun d => d.fields.createdAt) = some (some 0) ∧
    saveDocumentGo 1 baseStore [] "n1" "B" 1 (some 1) =
      .ok ([("n1", ⟨2, ⟨"B", none, some 1, none⟩⟩)], 2) ∧
    (lookupDoc [("n1", ⟨2, ⟨"B", none, some 1, none⟩⟩)] "n1").map
      (fun d => d.fields.createdAt) = some none :=
  ⟨rfl, rfl, rfl⟩

/-- C3 (amended): every successful save rewrites `updatedAt` to the time
of the write; `createdAt` is kept by `saveNote` and by `saveDocument`
without an explicit revision, but a `saveDocument` call with an explicit
revision stores the document without any `createdAt` (or `type`) field
instead of keeping the first-write value. -/
theorem C3_timestamp_rules (s : Store) (id c : String) (now : Time) (r : Nat)
    (f : DocFields) (h : lookupDoc s id = some ⟨r, f⟩) :
    (∀ fuel env rev s' r', saveDocumentGo fuel s env id c now rev = .ok (s', r') →
      ∃ cAt tp, lookupDoc s' id = some ⟨r', ⟨c, cAt, some now, tp⟩⟩) ∧
    (∀ env cr s' r', saveNote s env id c now cr = .ok (s', r') →
      ∃ cAt, lookupDoc s' id = some ⟨r', ⟨c, cAt, some now, none⟩⟩) ∧
    saveNote s [] id c now none =
      .ok (setDoc s id ⟨r + 1, ⟨c, f.createdAt, some now, none⟩⟩, r + 1) ∧
    saveDocumentGo 1 s [] id c now none =
      .ok (setDoc s id ⟨r + 1, ⟨c, f.createdAt, some now, f.type⟩⟩, r + 1) ∧
    saveDocumentGo 1 s [] id c now (some r) =
      .ok (setDoc s id ⟨r + 1, ⟨c, none, some now, none⟩⟩, r + 1) := by
  refine ⟨fun fuel env rev s' r' hh => saveDocumentGo_ok_fields id c now fuel s env rev s' r' hh,
    fun env cr s' r' hh => saveNote_ok_fields id c now s env cr s' r' hh, ?_, ?_, ?_⟩
  · rw [saveNote.eq_def]
    simp [popEnv, dbGet, dbPut, h]
  · rw [saveDocumentGo.eq_def]
    simp [popEnv, dbGet, dbPut, h]
  · rw [saveDocumentGo.eq_def]
    simp [popEnv, dbGet, dbPut, h]

/-- Witness for C3: the three computation rules at `baseStore`. -/
theorem C3_timestamp_rules_witness :
    saveNote baseStore [] "n1" "B" 1 none =
      .ok (setDoc baseStore "n1" ⟨2, ⟨"B", some 0, some 1, none⟩⟩, 2) ∧
    saveDocumentGo 1 baseStore [] "n1" "B" 1 none =
      .ok (setDoc baseStore "n1" ⟨2, ⟨"B", some 0, some 1, some "note"⟩⟩, 2) ∧
    saveDocumentGo 1 baseStore [] "n1" "B" 1 (some 1) =
      .ok (setDoc baseStore "n1" ⟨2, ⟨"B", none, some 1, none⟩⟩, 2) :=
  ⟨(C3_timestamp_rules baseStore "n1" "B" 1 1 ⟨"A", some 0, some 0, some "note"⟩ rfl).2.2.1,
   (C3_timestamp_rules baseStore "n1" "B" 1 1 ⟨"A", some 0, some 0, some "note"⟩ rfl).2.2.2.1,
   (C3_timestamp_rules baseStore "n1" "B" 1 1 ⟨"A", some 0, some 0, some "note"⟩ rfl).2.2.2.2⟩

/-! ### C8: an explicit-revision save strips every other field -/

/-- C8: a `saveDocument` call with the explicit current revision of an
existing document succeeds and stores exactly
`{_id, _rev, content, updatedAt}` — `createdAt` and the `type`
discriminator are gone — and consequently the document no longer appears
in `queryDocumentsByType "note"` (no entry of the query result carries
its id while its `type` field stays absent). -/
theorem C8_explicit_rev_strips_fields (s : Store) (id c : String) (now : Time)
    (r : Nat) (f : DocFields) (h : lookupDoc s id = some ⟨r, f⟩)
    (hnd : (s.map Prod.fst).Nodup) :
    saveDocumentGo 1 s [] id c now (some r) =
      .ok (setDoc s id ⟨r + 1, ⟨c, none, some now, none⟩⟩, r + 1) ∧
    lookupDoc (setDoc s id ⟨r + 1, ⟨c, none, some now, none⟩⟩) id =
      some ⟨r + 1, ⟨c, none, some now, none⟩⟩ ∧
    (∀ p, p ∈ queryDocumentsByType (setDoc s id ⟨r + 1, ⟨c, none, some now, none⟩⟩) "note" →
      p.1 ≠ id) := by
  refine ⟨?_, lookupDoc_setDoc_self .., ?_⟩
  · rw [saveDocumentGo.eq_def]
    simp [popEnv, dbGet, dbPut, h]
  · intro p hp hpi
    have hmem : p ∈ setDoc s id ⟨r + 1, ⟨c, none, some now, none⟩⟩ ∧
        p.2.fields.type = some "note" := by
      rw [queryDocumentsByType, List.mem_insertionSort, List.mem_filter] at hp
      exact ⟨hp.1, of_decide_eq_true hp.2⟩
    rcases mem_setDoc_of_nodup hnd hmem.1 with heq | ⟨_, hne⟩
    · rw [heq] at hmem
      simp at hmem
    · exact hne hpi

/-- Witness for C8: stripping `n1` in `baseStore`. -/
theorem C8_explicit_rev_strips_fields_witness :
    saveDocumentGo 1 baseStore [] "n1" "B" 1 (some 1) =
      .ok (setDoc baseStore "n1" ⟨2, ⟨"B", none, some 1, none⟩⟩, 2) ∧
    (∀ p, p ∈ queryDocumentsByType (setDoc baseStore "n1" ⟨2, ⟨"B", none, some 1, none⟩⟩) "note" →
      p.1 ≠ "n1") :=
  ⟨(C8_explicit_rev_strips_fields baseStore "n1" "B" 1 1 ⟨"A", some 0, some 0, some "note"⟩
      rfl (by decide)).1,
   (C8_explicit_rev_strips_fields baseStore "n1" "B" 1 1 ⟨"A", some 0, some 0, some "note"⟩
      rfl (by decide)).2.2⟩

/-! ### C1: conflict retry policy of the save helpers -/

/-- An interference schedule under which every `put` attempt of a
`saveDocument` run entered with the current revision conflicts `k`
times before succeeding: before each of the first `k` put attempts a
concurrent writer commits `g`, staling the fetched revision; the get of
each retry and the final put run undisturbed. -/
def conflictEnv (id : String) (g : DocFields) : Nat → List EnvAct
  | 0 => [.idle]
  | k + 1 => .extWrite id g :: .idle :: conflictEnv id g k

/-- `saveDocument`, entered with the current revision of an existing
document, absorbs any number `k` of consecutive put conflicts: it keeps
re-fetching and retrying (fuel `k + 1` suffices) and still returns
success, never surfacing the conflict. -/
theorem saveDocumentGo_absorbs_conflicts (id c : String) (now : Time) (g : DocFields) :
    ∀ (k : Nat) (s : Store) (r : Nat) (f : DocFields),
    lookupDoc s id = some ⟨r, f⟩ →
    ∃ s', saveDocumentGo (k + 1) s (conflictEnv id g k) id c now (some r) =
      .ok (s', r + k + 1) := by
  intro k
  induction k with
  | zero =>
    intro s r f h
    refine ⟨setDoc s id ⟨r + 1, ⟨c, none, some now, none⟩⟩, ?_⟩
    rw [saveDocumentGo.eq_def]
    simp [conflictEnv, popEnv, applyEnv, dbGet, dbPut, h]
  | succ n ih =>
    intro s r f h
    have happly : applyEnv s (.extWrite id g) = setDoc s id ⟨r + 1, g⟩ := by
      rw [applyEnv, h]
    have hlook : lookupDoc (setDoc s id ⟨r + 1, g⟩) id = some ⟨r + 1, g⟩ :=
      lookupDoc_setDoc_self ..
    obtain ⟨s', hs'⟩ := ih (setDoc s id ⟨r + 1, g⟩) (r + 1) g hlook
    refine ⟨s', ?_⟩
    rw [saveDocumentGo.eq_def]
    simp only [conflictEnv, popEnv, happly, dbPut, hlook, dbGet]
    have hne : ¬ (some r = some (r + 1)) := by simp
    simp only [if_neg hne, applyEnv, dbGet, hlook]
    have harith : r + (n + 1) + 1 = r + 1 + n + 1 := by omega
    rw [harith]
    exact hs' 

/-- C1 counterexample: a `saveDocument` run on `baseStore` in which the
first put (presenting revision 1 against current revision 2) and the
retry's put (presenting revision 2 against current revision 3) both fail
with `Conflict`, yet the helper retries a second time and returns
success — the second consecutive `Conflict` is not surfaced to the
caller. -/
theorem C1_counterexample :
    dbPut [("n1", ⟨2, extFields⟩)] ⟨"n1", some 1, ⟨"B", some 0, some 1, some "note"⟩⟩ =
      .error .conflict ∧
    dbPut [("n1", ⟨3, extFields⟩)] ⟨"n1", some 2, ⟨"B", none, some 1, none⟩⟩ =
      .error .conflict ∧
    saveDocumentGo 3 baseStore
      [.idle, .extWrite "n1" extFields, .idle, .extWrite "n1" extFields, .idle, .idle]
      "n1" "B" 1 none =
      .ok ([("n1", ⟨4, ⟨"B", none, some 1, none⟩⟩)], 4) :=
  ⟨rfl, rfl, rfl⟩

/-- C1 (amended): the two helpers differ.  `saveNote` re-fetches and
retries exactly once and surfaces a second consecutive `Conflict` to the
caller; `saveDocument` re-fetches and retries again on every `Conflict`
by calling itself recursively, so `k` consecutive conflicts — two or any
number more — are all absorbed and the call still succeeds. -/
theorem C1_conflict_retry_policy :
    (∀ (s : Store) (id c : String) (now : Time) (cr : Option Nat) (r : Nat)
        (f g1 g2 : DocFields), lookupDoc s id = some ⟨r, f⟩ →
      saveNote s [.idle, .extWrite id g1, .idle, .extWrite id g2] id c now cr =
        .error .conflict) ∧
    (∀ (id c : String) (now : Time) (g : DocFields) (k : Nat) (s : Store)
        (r : Nat) (f : DocFields), lookupDoc s id = some ⟨r, f⟩ →
      ∃ s', saveDocumentGo (k + 1) s (conflictEnv id g k) id c now (some r) =
        .ok (s', r + k + 1)) := by
  refine ⟨?_, fun id c now g k s r f h => saveDocumentGo_absorbs_conflicts id c now g k s r f h⟩
  intro s id c now cr r f g1 g2 h
  have happly1 : applyEnv s (.extWrite id g1) = setDoc s id ⟨r + 1, g1⟩ := by
    rw [applyEnv, h]
  have hlook1 : lookupDoc (setDoc s id ⟨r + 1, g1⟩) id = some ⟨r + 1, g1⟩ :=
    lookupDoc_setDoc_self ..
  have happly2 : applyEnv (setDoc s id ⟨r + 1, g1⟩) (.extWrite id g2) =
      setDoc (setDoc s id ⟨r + 1, g1⟩) id ⟨r + 2, g2⟩ := by
    rw [applyEnv, hlook1]
  have hlook2 : lookupDoc (setDoc (setDoc s id ⟨r + 1, g1⟩) id ⟨r + 2, g2⟩) id =
      some ⟨r + 2, g2⟩ := lookupDoc_setDoc_self ..
  rw [saveNote.eq_def]
  simp only [popEnv, applyEnv, dbGet, h, happly1, hlook1, dbPut]
  have hne1 : ¬ (some r = some (r + 1)) := by simp
  simp only [if_neg hne1, happly2, hlook2]
  have hne2 : ¬ (some (r + 1) = some (r + 2)) := by simp
  simp only [if_neg hne2]

/-- Witness for C1: on `baseStore`, a doubly-conflicted `saveNote`
surfaces the conflict while `saveDocument` under the two-conflict
schedule succeeds with revision 4. -/
theorem C1_conflict_retry_policy_witness :
    saveNote baseStore [.idle, .extWrite "n1" extFields, .idle, .extWrite "n1" extFields]
      "n1" "B" 1 none = .error .conflict ∧
    ∃ s', saveDocumentGo 3 baseStore (conflictEnv "n1" extFields 2) "n1" "B" 1 (some 1) =
      .ok (s', 4) :=
  ⟨C1_conflict_retry_policy.1 baseStore "n1" "B" 1 none 1
      ⟨"A", some 0, some 0, some "note"⟩ extFields extFields rfl,
   C1_conflict_retry_policy.2 "n1" "B" 1 extFields 2 baseStore 1
      ⟨"A", some 0, some 0, some "note"⟩ rfl⟩

/-! ### C2 and C9: debounced sync -/

/-- Through a burst — every next call arriving no earlier than, and less
than `DEBOUNCE_DELAY` after, the previous one — each call finds the
pending timer still in the future, clears it, and re-arms its own: no
timer fires, and at the end the pending timer belongs to the last call,
due `DEBOUNCE_DELAY` after it. -/
theorem debounceRun_burst (calls : List (Nat × Time)) :
    ∀ (j : Nat) (t : Time) (fired : List (Nat × Time)),
    List.Chain BurstStep t (calls.map Prod.snd) →
    debounceRun ⟨some (j, t + DEBOUNCE_DELAY), fired⟩ calls =
      ⟨some ((lastD (j, t) calls).1, (lastD (j, t) calls).2 + DEBOUNCE_DELAY), fired⟩ := by
  induction calls with
  | nil =>
    intro j t fired _
    simp [debounceRun, lastD]
  | cons c rest ih =>
    intro j t fired hchain
    obtain ⟨i', t'⟩ := c
    rw [List.map_cons] at hchain
    cases hchain with
    | cons hstep htail =>
      have hnf : ¬ (t + DEBOUNCE_DELAY ≤ t') := not_le.mpr hstep.2
      show debounceRun (debounceCall ⟨some (j, t + DEBOUNCE_DELAY), fired⟩ i' t') rest = _
      rw [debounceCall]
      simp only [if_neg hnf]
      exact ih i' t' fired htail

/-- C2: for any burst of `N ≥ 1` calls to `debouncedSync` whose
consecutive calls are separated by less than the 500 ms window, exactly
one underlying `startSync` invocation fires, `DEBOUNCE_DELAY` after the
last call of the burst, and it is the last call's; every earlier call's
timer was cleared, not queued. -/
theorem C2_debounce_collapses_burst (i0 : Nat) (t0 : Time) (calls : List (Nat × Time))
    (h : List.Chain BurstStep t0 (calls.map Prod.snd)) :
    (debouncedSyncRuns ((i0, t0) :: calls)).fired =
      [((lastD (i0, t0) calls).1, (lastD (i0, t0) calls).2 + DEBOUNCE_DELAY)] := by
  rw [debouncedSyncRuns]
  show (debounceFlush (debounceRun (debounceCall ⟨none, []⟩ i0 t0) calls)).fired = _
  rw [debounceCall]
  simp only []
  rw [debounceRun_burst calls i0 t0 [] h]
  rfl

/-- Witness for C2: the burst 0, 100, 300 fires startSync once, at
time 800, for the third call. -/
theorem C2_debounce_collapses_burst_witness :
    (debouncedSyncRuns [(0, 0), (1, 100), (2, 300)]).fired = [(2, 800)] :=
  C2_debounce_collapses_burst 0 0 [(1, 100), (2, 300)]
    (List.Chain.cons (burstStep_of 0 100 (by norm_num) (by norm_num))
      (List.Chain.cons (burstStep_of 100 300 (by norm_num) (by norm_num)) List.Chain.nil))

/-- C9: a `debouncedSync` call superseded inside the window never has its
promise settled.  During the burst no timer callback runs at all (so no
promise is resolved or rejected while calls keep arriving), and once time
runs out only the last call's timer fires — the fired log names exactly
the last call's index, and any call with a different index is absent from
it forever. -/
theorem C9_superseded_promise_never_settles (i0 : Nat) (t0 : Time)
    (calls : List (Nat × Time))
    (h : List.Chain BurstStep t0 (calls.map Prod.snd)) :
    (debounceRun ⟨none, []⟩ ((i0, t0) :: calls)).fired = [] ∧
    (debouncedSyncRuns ((i0, t0) :: calls)).fired.map Prod.fst =
      [(lastD (i0, t0) calls).1] ∧
    (∀ p ∈ (i0, t0) :: calls, p.1 ≠ (lastD (i0, t0) calls).1 →
      p.1 ∉ (debouncedSyncRuns ((i0, t0) :: calls)).fired.map Prod.fst) := by
  have hrun : debounceRun ⟨none, []⟩ ((i0, t0) :: calls) =
      ⟨some ((lastD (i0, t0) calls).1, (lastD (i0, t0) calls).2 + DEBOUNCE_DELAY), []⟩ := by
    show debounceRun (debounceCall ⟨none, []⟩ i0 t0) calls = _
    rw [debounceCall]
    simp only []
    exact debounceRun_burst calls i0 t0 [] h
  have hflush : (debouncedSyncRuns ((i0, t0) :: calls)).fired =
      [((lastD (i0, t0) calls).1, (lastD (i0, t0) calls).2 + DEBOUNCE_DELAY)] := by
    rw [debouncedSyncRuns, hrun]
    rfl
  refine ⟨by rw [hrun], by rw [hflush]; rfl, ?_⟩
  intro p _ hne
  rw [hflush]
  simp [hne]

/-- Witness for C9: in the burst 0, 100, 300 the superseded calls 0 and 1
never appear in the fired log; only call 2 does. -/
theorem C9_superseded_promise_never_settles_witness :
    (debounceRun ⟨none, []⟩ [(0, 0), (1, 100), (2, 300)]).fired = [] ∧
    (0 : Nat) ∉ (debouncedSyncRuns [(0, 0), (1, 100), (2, 300)]).fired.map Prod.fst ∧
    (1 : Nat) ∉ (debouncedSyncRuns [(0, 0), (1, 100), (2, 300)]).fired.map Prod.fst := by
  have h := C9_superseded_promise_never_settles 0 0 [(1, 100), (2, 300)]
    (List.Chain.cons (burstStep_of 0 100 (by norm_num) (by norm_num))
      (List.Chain.cons (burstStep_of 100 300 (by norm_num) (by norm_num)) List.Chain.nil))
  exact ⟨h.1,
    h.2.2 (0, 0) (by simp) (by decide),
    h.2.2 (1, 100) (by simp) (by decide)⟩

/-! ### C6: at most one live replication per sync service -/

/-- C6: `startSync` preserves the single-active-replication invariant:
after any call the live (created and never cancelled) replications are
exactly the stored handler — in particular at most one — and whenever a
handler already existed and the call proceeds to create a replication
(sync enabled, both databases available), that previous handler is
cancelled first. -/
theorem C6_single_active_replication (st : SyncServState) (hinv : SyncInv st) :
    SyncInv (startSyncStep st).1 ∧
    (liveHandlers (startSyncStep st).1).length ≤ 1 ∧
    (∀ h0, st.syncHandler = some h0 → st.enabled = true → st.localOk = true →
      st.remoteOk = true → h0 ∈ (startSyncStep st).1.cancelled) := by
  obtain ⟨h1, h2, h3⟩ := hinv
  have hlen : ∀ st' : SyncServState, SyncInv st' → (liveHandlers st').length ≤ 1 := by
    intro st' hi
    rw [hi.1]
    cases st'.syncHandler <;> simp
  by_cases he : st.enabled = true
  · by_cases hl : st.localOk = true
    · by_cases hr : st.remoteOk = true
      · -- the call proceeds: cancel the old handler (if any), create the new one
        have hstep : startSyncStep st =
            (let st1 :=
              match st.syncHandler with
              | some h0 => { st with syncHandler := none, cancelled := st.cancelled ++ [h0] }
              | none => st
            ({ st1 with
                syncHandler := some st1.nextId,
                nextId := st1.nextId + 1,
                created := st1.created ++ [st1.nextId] },
             .started st1.nextId)) := by
          rw [startSyncStep]
          simp [he, hl, hr]
        cases hh : st.syncHandler with
        | some h0 =>
          have hh0created : h0 ∈ st.created := by
            have : h0 ∈ liveHandlers st := by
              rw [h1, hh]
              simp
            exact (List.mem_filter.mp this).1
          have hh0lt : h0 < st.nextId := h2 h0 hh0created
          have hnewlive : liveHandlers (startSyncStep st).1 = [st.nextId] := by
            rw [hstep]
            simp only [hh, liveHandlers, List.filter_append]
            have hold : st.created.filter
                (fun i => decide (i ∉ st.cancelled ++ [h0])) = [] := by
              rw [List.filter_eq_nil_iff]
              intro i hi
              simp only [List.mem_append, List.mem_singleton, decide_eq_true_eq, not_or,
                not_and, not_not, Decidable.not_not]
              intro hnc
              have : i ∈ liveHandlers st := by
                rw [liveHandlers, List.mem_filter]
                exact ⟨hi, by simpa using hnc⟩
              rw [h1, hh] at this
              simpa using this
            have hdec : st.nextId ∉ st.cancelled ++ [h0] := by
              intro hmem
              rcases List.mem_append.mp hmem with hc | hc
              · exact absurd (h3 _ hc) (by omega)
              · rw [List.mem_singleton] at hc
                omega
            have hnew : [st.nextId].filter
                (fun i => decide (i ∉ st.cancelled ++ [h0])) = [st.nextId] := by
              simp only [List.mem_append, List.mem_singleton, not_or] at hdec
              simp [hdec.1, hdec.2]
            rw [hold, hnew]
            simp
          refine ⟨⟨?_, ?_, ?_⟩, ?_, ?_⟩
          · rw [hnewlive, hstep]
            simp [hh]
          · rw [hstep]
            simp only [hh]
            intro i hi
            rcases List.mem_append.mp hi with hc | hc
            · have := h2 i hc
              omega
            · rw [List.mem_singleton] at hc
              omega
          · rw [hstep]
            simp only [hh]
            intro i hi
            rcases List.mem_append.mp hi with hc | hc
            · have := h3 i hc
              omega
            · rw [List.mem_singleton] at hc
              omega
          · rw [hnewlive]
            simp
          · intro h0' hh' _ _ _
            have heq0 : h0' = h0 := (Option.some_injective _ hh').symm
            subst heq0
            rw [hstep]
            simp [hh]
        | none =>
          have hnewlive : liveHandlers (startSyncStep st).1 = [st.nextId] := by
            rw [hstep]
            simp only [hh, liveHandlers, List.filter_append]
            have hold : st.created.filter (fun i => decide (i ∉ st.cancelled)) = [] := by
              have := h1
              rw [hh] at this
              simpa [liveHandlers] using this
            have hdec : st.nextId ∉ st.cancelled := by
              intro hmem
              exact absurd (h3 _ hmem) (by omega)
            have hnew : [st.nextId].filter
                (fun i => decide (i ∉ st.cancelled)) = [st.nextId] := by
              simp [hdec]
            rw [hold, hnew]
            simp
          refine ⟨⟨?_, ?_, ?_⟩, ?_, ?_⟩
          · rw [hnewlive, hstep]
            simp [hh]
          · rw [hstep]
            simp only [hh]
            intro i hi
            rcases List.mem_append.mp hi with hc | hc
            · have := h2 i hc
              omega
            · rw [List.mem_singleton] at hc
              omega
          · rw [hstep]
            simp only [hh]
            intro i hi
            have := h3 i hi
            omega
          · rw [hnewlive]
            simp
          · intro h0' hh'
            exact Option.noConfusion hh'
      · have hstep : startSyncStep st = (st, .dbUnavailable) := by
          rw [startSyncStep]
          have : st.remoteOk = false := by
            cases hb : st.remoteOk
            · rfl
            · exact absurd hb hr
          simp [he, this]
        rw [hstep]
        exact ⟨⟨h1, h2, h3⟩, hlen st ⟨h1, h2, h3⟩, fun h0 _ _ _ hr' => absurd hr' hr⟩
    · have hstep : startSyncStep st = (st, .dbUnavailable) := by
        rw [startSyncStep]
        have : st.localOk = false := by
          cases hb : st.localOk
          · rfl
          · exact absurd hb hl
        simp [he, this]
      rw [hstep]
      exact ⟨⟨h1, h2, h3⟩, hlen st ⟨h1, h2, h3⟩, fun h0 _ _ hl' _ => absurd hl' hl⟩
  · have hstep : startSyncStep st = (st, .disabled) := by
      rw [startSyncStep]
      have : st.enabled = false := by
        cases hb : st.enabled
        · rfl
        · exact absurd hb he
      simp [this]
    rw [hstep]
    exact ⟨⟨h1, h2, h3⟩, hlen st ⟨h1, h2, h3⟩, fun h0 _ he' _ _ => absurd he' he⟩

/-- Witness for C6: a service with one live handler 0; calling
`startSync` cancels 0 and leaves only the new handler 1 live. -/
theorem C6_single_active_replication_witness :
    SyncInv (startSyncStep ⟨true, true, true, some 0, 1, [0], []⟩).1 ∧
    (liveHandlers (startSyncStep ⟨true, true, true, some 0, 1, [0], []⟩).1).length ≤ 1 ∧
    (0 : Nat) ∈ (startSyncStep ⟨true, true, true, some 0, 1, [0], []⟩).1.cancelled := by
  have h := C6_single_active_replication ⟨true, true, true, some 0, 1, [0], []⟩
    (by refine ⟨rfl, ?_, ?_⟩ <;> simp [liveHandlers])
  exact ⟨h.1, h.2.1, h.2.2 0 rfl rfl rfl rfl⟩

/-! ### C7: subscription semantics -/

/-- The initial status of the sync service (`DEFAULT_STATUS` in the
source). -/
def DEFAULT_STATUS : SyncStatus := ⟨false, false, false, none, none⟩

/-- C7: `subscribe` appends the handler and synchronously delivers the
current status to it exactly once; a subsequent transition is delivered
to every subscriber in subscription order (existing subscribers first,
the newest last, each exactly once, synchronously); the unsubscribe
closure removes exactly that handler — the remaining subscribers are the
original ones, the handler is gone, and a later transition delivers to
the original subscribers only. -/
theorem C7_subscribe_contract (st : SubsState) (h : Nat) (s1 : SyncStatus)
    (hnew : h ∉ st.subscribers) :
    (subscribe st h).subscribers = st.subscribers ++ [h] ∧
    (subscribe st h).deliveries = st.deliveries ++ [(h, st.currentStatus)] ∧
    (subscribe st h).currentStatus = st.currentStatus ∧
    (notifySubscribers (subscribe st h) s1).deliveries =
      st.deliveries ++ [(h, st.currentStatus)] ++
        st.subscribers.map (fun x => (x, s1)) ++ [(h, s1)] ∧
    (unsubscribe (subscribe st h) h).subscribers = st.subscribers ∧
    h ∉ (unsubscribe (subscribe st h) h).subscribers ∧
    (∀ s2, (notifySubscribers (unsubscribe (subscribe st h) h) s2).deliveries =
      st.deliveries ++ [(h, st.currentStatus)] ++
        st.subscribers.map (fun x => (x, s2))) := by
  have herase : (st.subscribers ++ [h]).erase h = st.subscribers := by
    rw [List.erase_append_right _ hnew, List.erase_cons_head, List.append_nil]
  refine ⟨rfl, rfl, rfl, ?_, ?_, ?_, ?_⟩
  · simp [notifySubscribers, subscribe, List.append_assoc]
  · simp [unsubscribe, subscribe, herase]
  · simp only [unsubscribe, subscribe]
    rw [herase]
    exact hnew
  · intro s2
    simp [notifySubscribers, unsubscribe, subscribe, herase, List.append_assoc]

/-- Witness for C7: a service with subscriber 1 gaining and losing
subscriber 2. -/
theorem C7_subscribe_contract_witness :
    (subscribe ⟨[1], DEFAULT_STATUS, []⟩ 2).deliveries = [(2, DEFAULT_STATUS)] ∧
    (notifySubscribers (subscribe ⟨[1], DEFAULT_STATUS, []⟩ 2)
        ⟨true, false, true, none, none⟩).deliveries =
      [(2, DEFAULT_STATUS), (1, ⟨true, false, true, none, none⟩),
        (2, ⟨true, false, true, none, none⟩)] ∧
    (unsubscribe (subscribe ⟨[1], DEFAULT_STATUS, []⟩ 2) 2).subscribers = [1] := by
  have h := C7_subscribe_contract ⟨[1], DEFAULT_STATUS, []⟩ 2
    ⟨true, false, true, none, none⟩ (by decide)
  exact ⟨h.2.1, h.2.2.2.1, h.2.2.2.2.1⟩

/-! ### C5: `find` filters by kind and sorts by descending `updatedAt` -/

/-- Run one `saveDocument` creation and keep the resulting store. -/
def demoStep (s : Store) (id content : String) (now : Time) : Store :=
  match saveDocumentGo 1 s [] id content now none with
  | .ok (s', _) => s'
  | .error _ => s

/-- Notes A, B, C written in that order (times 1 < 2 < 3) into a store
already holding a colocated non-domain record. -/
def demoABC : Store :=
  demoStep (demoStep (demoStep
    [("cfg", ⟨1, ⟨"cfgdata", none, some 9, some "config"⟩⟩)]
    "A" "a" 1) "B" "b" 2) "C" "c" 3

/-- C5: `queryDocumentsByType` returns exactly the documents whose kind
discriminator equals the requested kind (a permutation of the kind
filter of the store, membership equivalent to kind equality), sorted by
descending `updatedAt`; in particular writing notes A, B, C in that
order with distinct `updatedAt` and then querying the kind returns
`[C, B, A]`, excluding the colocated non-domain record. -/
theorem C5_find_kind_sorted :
    (∀ (s : Store) (t : String), (queryDocumentsByType s t).Perm
      (s.filter (fun p => decide (p.2.fields.type = some t)))) ∧
    (∀ (s : Store) (t : String), List.Sorted byUpdatedAtDesc (queryDocumentsByType s t)) ∧
    (∀ (s : Store) (t : String) (p : String × StoredDoc),
      p ∈ queryDocumentsByType s t ↔ p ∈ s ∧ p.2.fields.type = some t) ∧
    demoABC = [("cfg", ⟨1, ⟨"cfgdata", none, some 9, some "config"⟩⟩),
      ("A", ⟨1, ⟨"a", some 1, some 1, some "note"⟩⟩),
      ("B", ⟨1, ⟨"b", some 2, some 2, some "note"⟩⟩),
      ("C", ⟨1, ⟨"c", some 3, some 3, some "note"⟩⟩)] ∧
    (queryDocumentsByType demoABC "note").map Prod.fst = ["C", "B", "A"] := by
  refine ⟨fun s t => List.perm_insertionSort byUpdatedAtDesc _,
    fun s t => List.sorted_insertionSort byUpdatedAtDesc _, fun s t p => ?_, rfl, rfl⟩
  rw [queryDocumentsByType, List.mem_insertionSort, List.mem_filter]
  simp

end Matneez
